import Mathlib

/-!
Shallow embedding of the Dialog_FA_UI annotation tool.

The repository has three controller variants:
  * `src/UI_Eval_wiki.py`      — function `annotate` (top-level wiki variant, "A")
  * `src/UI_eval_translate.py` — function `save_and_next` (translate variant, "B")
  * `src/wiki/UI_Eval_wiki.py` — function `save_annotation` (wiki subdirectory variant, "C")

A pandas row is modelled as a `Record`; the dataframe is a `List Record` for
the per-record claims, and a column-indexed table `DF` for the startup /
reconcile / persistence claims.  Cells that can be `pd.NA` are `Option String`.
Python `str.strip()` is modelled by `pyStrip`, which removes leading and
trailing whitespace characters.
-/

set_option maxHeartbeats 1000000

namespace DialogFA

/-- Python `str.strip()`: remove leading and trailing whitespace. -/
def pyStrip (s : String) : String :=
  let cs := s.data.dropWhile Char.isWhitespace
  String.mk ((cs.reverse.dropWhile Char.isWhitespace).reverse)

/-- One row of the annotation table.  The union of the columns the three
variants read: `dialog` is used by the translate variant only; the wiki
variants use `title`, `text`, `selected_style`, `selected_starter`.  The two
columns owned by the tool are `generated_conversation_annotated` and
`modified_flag`, both nullable. -/
structure Record where
  title : String
  text : String
  selected_style : String
  selected_starter : String
  dialog : String
  generated_conversation : String
  generated_conversation_annotated : Option String
  modified_flag : Option String
deriving Repr, DecidableEq, Inhabited

/-- Record-level effect of `annotate` in `src/UI_Eval_wiki.py` (lines 47-63):
store the edited text, then set `modified_flag` by comparing the edited text
to the original `generated_conversation` with plain string equality. -/
def annotateRec (x : String) (r : Record) : Record :=
  let original_conversation := r.generated_conversation
  let r1 := { r with generated_conversation_annotated := some x }
  if x = original_conversation then
    { r1 with modified_flag := some "No Change" }
  else
    { r1 with modified_flag := some "Changed" }

/-- Record-level effect of `save_and_next` in `src/UI_eval_translate.py`
(lines 65-77): store the edited text, then set `modified_flag` by plain
string equality against `generated_conversation`. -/
def saveNextRec (x : String) (r : Record) : Record :=
  let original_text := r.generated_conversation
  let r1 := { r with generated_conversation_annotated := some x }
  if x = original_text then
    { r1 with modified_flag := some "No Change" }
  else
    { r1 with modified_flag := some "Changed" }

/-- Record-level effect of `save_annotation` in `src/wiki/UI_Eval_wiki.py`
(lines 192-201): set `modified_flag` by comparing the STRIPPED edited text
with the STRIPPED `generated_conversation`, then store the edited text. -/
def saveAnnotRec (x : String) (r : Record) : Record :=
  let original_conv := r.generated_conversation
  let r1 :=
    if pyStrip x = pyStrip original_conv then
      { r with modified_flag := some "No Change" }
    else
      { r with modified_flag := some "Changed" }
  { r1 with generated_conversation_annotated := some x }

/-- `df.at[i, col] = v` on a valid positional index: update the record at
index `i`; out-of-range indices leave the list unchanged (they never occur
in the tool, every access is at a current, in-range position). -/
def updAt (ds : List Record) (i : Nat) (f : Record → Record) : List Record :=
  match ds.get? i with
  | some r => ds.set i (f r)
  | none => ds

/-- A record counts as annotated when `generated_conversation_annotated`
is not NA (`pandas.notna`). -/
def isAnn (r : Record) : Bool :=
  r.generated_conversation_annotated.isSome

/-- `df_output[df_output['generated_conversation_annotated'].isna()].index.tolist()`:
the ascending list of row positions whose annotated cell is NA. -/
def unannIdx (ds : List Record) : List Nat :=
  (List.range ds.length).filter (fun i => !(isAnn (ds.getD i default)))

/-- `df_output['generated_conversation_annotated'].notna().sum()`. -/
def countAnn (ds : List Record) : Nat :=
  (ds.filter (fun r => isAnn r)).length

/-- Session state captured by the closures: the dataframe and the
current position. -/
structure Session where
  df : List Record
  pos : Nat
deriving Repr, DecidableEq

/-- `annotate` in `src/UI_Eval_wiki.py` (lines 47-92), dataframe and cursor
part: save the record at the current index, recompute the unannotated
indices, move to the first one if any remain; the returned string is the
status message shown to the user. -/
def annotateStep (s : Session) (x : String) : Session × String :=
  let df := updAt s.df s.pos (annotateRec x)
  let u := unannIdx df
  match u with
  | i :: _ => (⟨df, i⟩, "Annotation saved. Proceed to the next item.")
  | [] => (⟨df, s.pos⟩, "Annotation complete! All rows have been annotated.")

/-- `save_and_next` in `src/UI_eval_translate.py` (lines 65-101): save the
record at the current index, recount the annotated rows, move to the first
remaining unannotated row; the status reports `<done> of <total> annotated`.
`total_rows` is fixed at startup; saves never change the length, so it is
the current length. -/
def saveAndNextStep (s : Session) (x : String) : Session × String :=
  let df := updAt s.df s.pos (saveNextRec x)
  let annotated_count := countAnn df
  let total_rows := s.df.length
  match unannIdx df with
  | i :: _ =>
      (⟨df, i⟩, "Annotation saved. " ++ toString annotated_count ++ " of "
        ++ toString total_rows ++ " annotated.")
  | [] =>
      (⟨df, s.pos⟩, "Annotation complete! All " ++ toString total_rows
        ++ " rows have been annotated.")

/-- Status string produced by `load_item` in `src/wiki/UI_Eval_wiki.py`
(lines 176-191). -/
def loadItemStatus (ds : List Record) (i : Nat) : String :=
  "Row " ++ toString (i + 1) ++ " of " ++ toString ds.length ++ " — "
    ++ toString (countAnn ds) ++ " annotated so far."

/-- `save_annotation` in `src/wiki/UI_Eval_wiki.py` (lines 192-201): save the
record at the current index and redisplay the SAME row (`load_item(current_index)`);
the cursor does not move. -/
def saveAnnotStep (s : Session) (x : String) : Session × String :=
  let df := updAt s.df s.pos (saveAnnotRec x)
  (⟨df, s.pos⟩, loadItemStatus df s.pos)

/-- `go_next` in `src/wiki/UI_Eval_wiki.py` (lines 203-206): advance the
cursor, clamped at the last row. -/
def goNext (s : Session) : Session :=
  if s.pos < s.df.length - 1 then { s with pos := s.pos + 1 } else s

/-- `go_back` in `src/wiki/UI_Eval_wiki.py` (lines 208-211) and
`go_previous` in `src/UI_eval_translate.py` (lines 103-110): move the
cursor back, clamped at row 0. -/
def goBack (s : Session) : Session :=
  if s.pos > 0 then { s with pos := s.pos - 1 } else s

/-- One user action, over the union of the three variants' controls. -/
inductive Op where
  | adv : Op
  | ret : Op
  | saveA : String → Op
  | saveB : String → Op
  | saveC : String → Op
deriving Repr, DecidableEq

/-- Dispatch one user action on the session. -/
def stepOp (s : Session) (o : Op) : Session :=
  match o with
  | .adv => goNext s
  | .ret => goBack s
  | .saveA x => (annotateStep s x).1
  | .saveB x => (saveAndNextStep s x).1
  | .saveC x => (saveAnnotStep s x).1

/-- Run a finite sequence of user actions. -/
def runOps (s : Session) (ops : List Op) : Session :=
  ops.foldl stepOp s

/-! ## Column-indexed table model

For the startup, reconcile and persistence claims the dataframe is modelled
at column granularity: an ordered list of named columns, each a list of
nullable string cells. -/

/-- A dataframe as an ordered association list of columns. -/
structure DF where
  cols : List (String × List (Option String))
deriving Repr, DecidableEq, Inhabited

/-- The column with name `c`, if present (first match, as pandas raises on
duplicates and none occur here). -/
def findCol (df : DF) (c : String) : Option (String × List (Option String)) :=
  df.cols.find? (fun p => p.1 == c)

/-- `c in df.columns`. -/
def hasCol (df : DF) (c : String) : Bool :=
  (findCol df c).isSome

/-- `df[c]` as a list of cells; `[]` when the column is absent. -/
def getCol (df : DF) (c : String) : List (Option String) :=
  match findCol df c with
  | some p => p.2
  | none => []

/-- `len(df)`: the length of the first column (all columns of a real frame
have equal length). -/
def DF.nrows (df : DF) : Nat :=
  match df.cols with
  | [] => 0
  | p :: _ => p.2.length

/-- Index alignment of a pandas column assignment `dst[c] = src[c]` on
default range indices: truncate to `n` rows, pad missing rows with NA. -/
def alignTo (n : Nat) (vals : List (Option String)) : List (Option String) :=
  vals.take n ++ List.replicate (n - vals.length) none

/-- `df[c] = src_vals` for a column name `c` absent from `df`: pandas
appends the column on the right, index-aligned. -/
def appendCol (df : DF) (c : String) (vals : List (Option String)) : DF :=
  ⟨df.cols ++ [(c, alignTo df.nrows vals)]⟩

/-- `if c not in df.columns: df[c] = pd.NA`: broadcast NA over the rows. -/
def ensureNA (df : DF) (c : String) : DF :=
  if hasCol df c then df else ⟨df.cols ++ [(c, List.replicate df.nrows none)]⟩

/-- `'generated_conversation_annotated'`. -/
def annCol : String := "generated_conversation_annotated"

/-- `'modified_flag'`. -/
def flagCol : String := "modified_flag"

/-- One iteration of the resume loop of `main` in `src/wiki/UI_Eval_wiki.py`
(lines 151-153): `if col not in df_existing.columns:
df_existing[col] = df_output[col]`. -/
def reconStep (acc : DF) (p : String × List (Option String)) : DF :=
  if hasCol acc p.1 then acc else appendCol acc p.1 p.2

/-- The resume loop of `main` in `src/wiki/UI_Eval_wiki.py` (lines 150-153):
`for col in df_output.columns: if col not in df_existing.columns:
df_existing[col] = df_output[col]`, then the existing frame is the result. -/
def reconcileExisting (df0 dfE : DF) : DF :=
  df0.cols.foldl reconStep dfE

/-- The two files the tool touches, by content; `none` = the path does not
exist. -/
structure FS where
  input : Option DF
  output : Option DF
deriving Repr, DecidableEq

/-- Outcome of `main` before the interactive loop: a fatal diagnostic, the
"all rows annotated" early return of the top-level wiki variant, or a
launched session with its dataframe and starting position. -/
inductive StartOut where
  | missingFile : StartOut
  | schemaErr : List String → StartOut
  | allDone : StartOut
  | launched : DF → Nat → StartOut
deriving Repr, DecidableEq

/-- The dataframe the interactive session was launched with, if any. -/
def StartOut.getDF? : StartOut → Option DF
  | .launched df _ => some df
  | _ => none

/-- Required columns of `src/UI_Eval_wiki.py` (line 15). -/
def requiredA : List String :=
  ["text", "generated_conversation", "title", "selected_style", "selected_starter"]

/-- Required columns of `src/UI_eval_translate.py` (line 32). -/
def requiredB : List String := ["dialog", "generated_conversation"]

/-- Required columns of `src/wiki/UI_Eval_wiki.py` (line 136). -/
def requiredC : List String :=
  ["title", "text", "selected_style", "selected_starter", "generated_conversation"]

/-- `df[df['generated_conversation_annotated'].isna()].index.tolist()` at
column granularity. -/
def unannRows (df : DF) : List Nat :=
  (List.range df.nrows).filter (fun i => ((getCol df annCol).getD i none).isNone)

/-- Startup of `src/UI_Eval_wiki.py` `main` (lines 6-45): missing input file
and missing required columns are fatal; otherwise the output file, when it
exists, is loaded verbatim as the working frame, else the two annotation
columns are added as NA in memory (nothing is written); if no unannotated
row remains the program prints and exits, else it launches at the first
unannotated row.  The returned `FS` is the file system afterwards. -/
def startupA (fs : FS) : StartOut × FS :=
  match fs.input with
  | none => (.missingFile, fs)
  | some df_input =>
    match requiredA.find? (fun c => !(hasCol df_input c)) with
    | some c => (.schemaErr [c], fs)
    | none =>
      let df_output :=
        match fs.output with
        | some dfE => dfE
        | none => ensureNA (ensureNA df_input annCol) flagCol
      match unannRows df_output with
      | [] => (.allDone, fs)
      | i :: _ => (.launched df_output i, fs)

/-- Startup of `src/UI_eval_translate.py` `main` (lines 6-48): the schema
check (`{'dialog','generated_conversation'} ⊆ df_input.columns`) runs after
the resume branch; when the output file exists it is loaded verbatim; when
it does not, the annotation columns are added as NA in memory and nothing
is written.  The starting position is the first unannotated row, or the
last row when all are annotated. -/
def startupB (fs : FS) : StartOut × FS :=
  match fs.input with
  | none => (.missingFile, fs)
  | some df_input =>
    let df_output :=
      match fs.output with
      | some dfE => dfE
      | none => ensureNA (ensureNA df_input annCol) flagCol
    if requiredB.all (fun c => hasCol df_input c) then
      let total_rows := df_output.nrows
      let current_idx :=
        match unannRows df_output with
        | i :: _ => i
        | [] => total_rows - 1
      (.launched df_output current_idx, fs)
    else
      (.schemaErr requiredB, fs)

/-- Startup of `src/wiki/UI_Eval_wiki.py` `main` (lines 127-161): after the
fatal checks the annotation columns are ensured on a copy of the input;
when the output file exists it is loaded and columns it lacks are copied
across from that copy (`reconcileExisting`); when it does not exist, the
copy is written to the output path at once.  The starting position is the
first unannotated row, or 0 when all are annotated. -/
def startupC (fs : FS) : StartOut × FS :=
  match fs.input with
  | none => (.missingFile, fs)
  | some df_input =>
    match requiredC.find? (fun c => !(hasCol df_input c)) with
    | some c => (.schemaErr [c], fs)
    | none =>
      let df0 := ensureNA (ensureNA df_input annCol) flagCol
      match fs.output with
      | some dfE =>
        let df1 := reconcileExisting df0 dfE
        let pos :=
          match unannRows df1 with
          | i :: _ => i
          | [] => 0
        (.launched df1 pos, fs)
      | none =>
        let pos :=
          match unannRows df0 with
          | i :: _ => i
          | [] => 0
        (.launched df0 pos, { fs with output := some df0 })

/-- `df_output.to_csv(output_file_path)`: the output file now holds exactly
this frame (full-file rewrite). -/
def persistOut (fs : FS) (df : DF) : FS :=
  { fs with output := some df }

/-! ## Concrete fixtures used by counterexamples and witnesses -/

/-- An unannotated record whose generated text is `"g0"`. -/
def r0 : Record :=
  ⟨"t0", "x0", "sty0", "sta0", "d0", "g0", none, none⟩

/-- An unannotated record whose generated text is `"g1"`. -/
def r1 : Record :=
  ⟨"t1", "x1", "sty1", "sta1", "d1", "g1", none, none⟩

/-- A record whose generated text is `"a"`, used for the trim counterexample. -/
def rGenA : Record :=
  ⟨"t", "x", "sty", "sta", "d", "a", none, none⟩

/-- Input frame for the translate variant with one extra, non-required
column `speaker_info`. -/
def dfInB : DF :=
  ⟨[("dialog", [some "d"]), ("generated_conversation", [some "g"]),
    ("speaker_info", [some "sp"])]⟩

/-- A previously written output frame lacking `speaker_info` but carrying
the annotation columns. -/
def dfEB : DF :=
  ⟨[("dialog", [some "d"]), ("generated_conversation", [some "g"]),
    (annCol, [some "a"]), (flagCol, [some "Changed"])]⟩

/-- Minimal translate-variant input frame. -/
def dfInB5 : DF :=
  ⟨[("dialog", [some "d"]), ("generated_conversation", [some "g"])]⟩

/-- Minimal wiki-variant input frame with all required columns, one row. -/
def dfInC : DF :=
  ⟨[("title", [some "t"]), ("text", [some "x"]), ("selected_style", [some "sty"]),
    ("selected_starter", [some "sta"]), ("generated_conversation", [some "g"])]⟩

example : (saveAnnotStep ⟨[r0, r1], 0⟩ "e").1.pos = 0 := by decide
example : unannIdx (saveAnnotStep ⟨[r0, r1], 0⟩ "e").1.df = [1] := by decide
example : (annotateRec "a " rGenA).modified_flag = some "Changed" := by decide
example : pyStrip "a " = pyStrip "a" := by decide
example : (startupB ⟨some dfInB, some dfEB⟩).1 = .launched dfEB 0 := by decide
example : hasCol dfEB "speaker_info" = false := by decide
example : (startupB ⟨some dfInB5, none⟩).2.output = none := by decide
example :
    (startupB ⟨some dfInB5, none⟩).1.getDF? =
      some (ensureNA (ensureNA dfInB5 annCol) flagCol) := by decide
example :
    (saveAndNextStep ⟨[r0, r1], 0⟩ "b").2 = "Annotation saved. 1 of 2 annotated." := by
  decide

/-! ## Lemmas about row updates and the session step -/

theorem updAt_length (ds : List Record) (i : Nat) (f : Record → Record) :
    (updAt ds i f).length = ds.length := by
  unfold updAt
  cases h : ds.get? i with
  | none => rfl
  | some r => simp

theorem updAt_oob (ds : List Record) (i : Nat) (f : Record → Record)
    (h : ¬ i < ds.length) : updAt ds i f = ds := by
  unfold updAt
  rw [List.get?_eq_getElem?, List.getElem?_eq_none (by omega)]

theorem updAt_get?_ne (ds : List Record) (i j : Nat) (f : Record → Record)
    (h : j ≠ i) : (updAt ds i f).get? j = ds.get? j := by
  unfold updAt
  cases hg : ds.get? i with
  | none => rfl
  | some r =>
    rw [List.get?_eq_getElem?, List.get?_eq_getElem?, List.getElem?_set,
      if_neg (fun hij => h hij.symm)]

theorem updAt_get?_self (ds : List Record) (i : Nat) (f : Record → Record)
    (r : Record) (h : ds.get? i = some r) :
    (updAt ds i f).get? i = some (f r) := by
  have hlen : i < ds.length := by
    rw [List.get?_eq_getElem?] at h
    by_contra hc
    rw [List.getElem?_eq_none (by omega)] at h
    exact Option.noConfusion h
  unfold updAt
  rw [h, List.get?_eq_getElem?, List.getElem?_set, if_pos rfl, if_pos hlen]

theorem getD_updAt_self (ds : List Record) (i : Nat) (f : Record → Record)
    (d : Record) (hlen : i < ds.length) :
    (updAt ds i f).getD i d = f (ds.getD i d) := by
  have hg : ds.get? i = some (ds.getD i d) := by
    rw [List.get?_eq_getElem?, List.getD_eq_getElem?_getD,
      List.getElem?_eq_getElem hlen]
    rfl
  rw [List.getD_eq_getElem?_getD, ← List.get?_eq_getElem?,
    updAt_get?_self ds i f _ hg]
  rfl

theorem getD_updAt_ne (ds : List Record) (i j : Nat) (f : Record → Record)
    (d : Record) (h : j ≠ i) :
    (updAt ds i f).getD j d = ds.getD j d := by
  rw [List.getD_eq_getElem?_getD, List.getD_eq_getElem?_getD,
    ← List.get?_eq_getElem?, ← List.get?_eq_getElem?, updAt_get?_ne ds i j f h]

theorem mem_unannIdx_lt (ds : List Record) (i : Nat) (h : i ∈ unannIdx ds) :
    i < ds.length := by
  unfold unannIdx at h
  exact List.mem_range.mp (List.mem_filter.mp h).1

theorem annotateRec_ann (x : String) (r : Record) :
    (annotateRec x r).generated_conversation_annotated = some x := by
  by_cases h : x = r.generated_conversation <;> simp [annotateRec, h]

theorem saveNextRec_ann (x : String) (r : Record) :
    (saveNextRec x r).generated_conversation_annotated = some x := by
  by_cases h : x = r.generated_conversation <;> simp [saveNextRec, h]

theorem saveAnnotRec_ann (x : String) (r : Record) :
    (saveAnnotRec x r).generated_conversation_annotated = some x := by
  by_cases h : pyStrip x = pyStrip r.generated_conversation <;> simp [saveAnnotRec, h]

theorem annotateRec_flag (x : String) (r : Record) :
    (annotateRec x r).modified_flag =
      some (if x = r.generated_conversation then "No Change" else "Changed") := by
  by_cases h : x = r.generated_conversation <;> simp [annotateRec, h]

theorem saveNextRec_flag (x : String) (r : Record) :
    (saveNextRec x r).modified_flag =
      some (if x = r.generated_conversation then "No Change" else "Changed") := by
  by_cases h : x = r.generated_conversation <;> simp [saveNextRec, h]

theorem saveAnnotRec_flag (x : String) (r : Record) :
    (saveAnnotRec x r).modified_flag =
      some (if pyStrip x = pyStrip r.generated_conversation
        then "No Change" else "Changed") := by
  by_cases h : pyStrip x = pyStrip r.generated_conversation <;> simp [saveAnnotRec, h]

theorem annotateStep_df (s : Session) (x : String) :
    (annotateStep s x).1.df = updAt s.df s.pos (annotateRec x) := by
  simp only [annotateStep]
  cases unannIdx (updAt s.df s.pos (annotateRec x)) <;> rfl

theorem saveAndNextStep_df (s : Session) (x : String) :
    (saveAndNextStep s x).1.df = updAt s.df s.pos (saveNextRec x) := by
  simp only [saveAndNextStep]
  cases unannIdx (updAt s.df s.pos (saveNextRec x)) <;> rfl

theorem saveAnnotStep_df (s : Session) (x : String) :
    (saveAnnotStep s x).1.df = updAt s.df s.pos (saveAnnotRec x) := rfl

theorem saveAnnotStep_pos (s : Session) (x : String) :
    (saveAnnotStep s x).1.pos = s.pos := rfl

theorem stepOp_df_length (s : Session) (o : Op) :
    (stepOp s o).df.length = s.df.length := by
  cases o with
  | adv =>
    simp only [stepOp, goNext]
    split <;> rfl
  | ret =>
    simp only [stepOp, goBack]
    split <;> rfl
  | saveA x => rw [stepOp, annotateStep_df, updAt_length]
  | saveB x => rw [stepOp, saveAndNextStep_df, updAt_length]
  | saveC x => rw [stepOp, saveAnnotStep_df, updAt_length]

theorem annotateStep_pos_cons (s : Session) (x : String) (i : Nat) (rest : List Nat)
    (h : unannIdx (updAt s.df s.pos (annotateRec x)) = i :: rest) :
    (annotateStep s x).1.pos = i := by
  simp only [annotateStep]
  rw [h]

theorem annotateStep_pos_nil (s : Session) (x : String)
    (h : unannIdx (updAt s.df s.pos (annotateRec x)) = []) :
    (annotateStep s x).1.pos = s.pos := by
  simp only [annotateStep]
  rw [h]

theorem saveAndNextStep_pos_cons (s : Session) (x : String) (i : Nat) (rest : List Nat)
    (h : unannIdx (updAt s.df s.pos (saveNextRec x)) = i :: rest) :
    (saveAndNextStep s x).1.pos = i := by
  simp only [saveAndNextStep]
  rw [h]

theorem saveAndNextStep_pos_nil (s : Session) (x : String)
    (h : unannIdx (updAt s.df s.pos (saveNextRec x)) = []) :
    (saveAndNextStep s x).1.pos = s.pos := by
  simp only [saveAndNextStep]
  rw [h]

theorem annotateStep_status_cons (s : Session) (x : String) (i : Nat) (rest : List Nat)
    (h : unannIdx (updAt s.df s.pos (annotateRec x)) = i :: rest) :
    (annotateStep s x).2 = "Annotation saved. Proceed to the next item." := by
  simp only [annotateStep]
  rw [h]

theorem saveAndNextStep_status_cons (s : Session) (x : String) (i : Nat)
    (rest : List Nat)
    (h : unannIdx (updAt s.df s.pos (saveNextRec x)) = i :: rest) :
    (saveAndNextStep s x).2 =
      "Annotation saved. "
        ++ toString (countAnn (updAt s.df s.pos (saveNextRec x))) ++ " of "
        ++ toString s.df.length ++ " annotated." := by
  simp only [saveAndNextStep]
  rw [h]

theorem stepOp_pos_lt (s : Session) (o : Op) (h : s.pos < s.df.length) :
    (stepOp s o).pos < (stepOp s o).df.length := by
  cases o with
  | adv =>
    by_cases hlt : s.pos < s.df.length - 1 <;> simp [stepOp, goNext, hlt] <;> omega
  | ret =>
    by_cases hz : s.pos > 0 <;> simp [stepOp, goBack, hz] <;> omega
  | saveA x =>
    rw [stepOp, annotateStep_df, updAt_length]
    cases hu : unannIdx (updAt s.df s.pos (annotateRec x)) with
    | nil => rw [annotateStep_pos_nil s x hu]; exact h
    | cons i rest =>
      rw [annotateStep_pos_cons s x i rest hu]
      have hm : i ∈ unannIdx (updAt s.df s.pos (annotateRec x)) := by
        rw [hu]; exact List.mem_cons_self i rest
      have := mem_unannIdx_lt _ _ hm
      rwa [updAt_length] at this
  | saveB x =>
    rw [stepOp, saveAndNextStep_df, updAt_length]
    cases hu : unannIdx (updAt s.df s.pos (saveNextRec x)) with
    | nil => rw [saveAndNextStep_pos_nil s x hu]; exact h
    | cons i rest =>
      rw [saveAndNextStep_pos_cons s x i rest hu]
      have hm : i ∈ unannIdx (updAt s.df s.pos (saveNextRec x)) := by
        rw [hu]; exact List.mem_cons_self i rest
      have := mem_unannIdx_lt _ _ hm
      rwa [updAt_length] at this
  | saveC x =>
    rw [stepOp, saveAnnotStep_df, updAt_length, saveAnnotStep_pos]
    exact h

theorem runOps_cons (s : Session) (o : Op) (ops : List Op) :
    runOps s (o :: ops) = runOps (stepOp s o) ops := rfl

theorem runOps_pos_lt (ops : List Op) (s : Session) (h : s.pos < s.df.length) :
    (runOps s ops).pos < (runOps s ops).df.length := by
  induction ops generalizing s with
  | nil => exact h
  | cons o rest ih =>
    rw [runOps_cons]
    exact ih (stepOp s o) (stepOp_pos_lt s o h)

theorem isAnn_annotateRec (x : String) (r : Record) :
    isAnn (annotateRec x r) = true := by
  rw [isAnn, annotateRec_ann]; rfl

theorem isAnn_saveNextRec (x : String) (r : Record) :
    isAnn (saveNextRec x r) = true := by
  rw [isAnn, saveNextRec_ann]; rfl

theorem isAnn_saveAnnotRec (x : String) (r : Record) :
    isAnn (saveAnnotRec x r) = true := by
  rw [isAnn, saveAnnotRec_ann]; rfl

theorem isAnn_updAt_save (ds : List Record) (p i : Nat) (f : Record → Record)
    (hf : ∀ r, isAnn (f r) = true)
    (h : isAnn (ds.getD i default) = true) :
    isAnn ((updAt ds p f).getD i default) = true := by
  by_cases hlen : p < ds.length
  · by_cases hip : i = p
    · subst hip
      rw [getD_updAt_self ds i f default hlen]
      exact hf _
    · rw [getD_updAt_ne ds p i f default hip]
      exact h
  · rw [updAt_oob ds p f hlen]
    exact h

theorem isAnn_stepOp (s : Session) (o : Op) (i : Nat)
    (h : isAnn (s.df.getD i default) = true) :
    isAnn ((stepOp s o).df.getD i default) = true := by
  cases o with
  | adv =>
    simp only [stepOp, goNext]
    split <;> exact h
  | ret =>
    simp only [stepOp, goBack]
    split <;> exact h
  | saveA x =>
    rw [stepOp, annotateStep_df]
    exact isAnn_updAt_save s.df s.pos i _ (isAnn_annotateRec x) h
  | saveB x =>
    rw [stepOp, saveAndNextStep_df]
    exact isAnn_updAt_save s.df s.pos i _ (isAnn_saveNextRec x) h
  | saveC x =>
    rw [stepOp, saveAnnotStep_df]
    exact isAnn_updAt_save s.df s.pos i _ (isAnn_saveAnnotRec x) h

theorem isAnn_runOps (ops : List Op) (s : Session) (i : Nat)
    (h : isAnn (s.df.getD i default) = true) :
    isAnn ((runOps s ops).df.getD i default) = true := by
  induction ops generalizing s with
  | nil => exact h
  | cons o rest ih =>
    rw [runOps_cons]
    exact ih (stepOp s o) (isAnn_stepOp s o i h)

theorem updAt_idem (ds : List Record) (i : Nat) (f : Record → Record)
    (hf : ∀ r, f (f r) = f r) :
    updAt (updAt ds i f) i f = updAt ds i f := by
  cases hg : ds.get? i with
  | none =>
    have h1 : updAt ds i f = ds := by unfold updAt; rw [hg]
    rw [h1]
    exact h1
  | some r =>
    have h1 : updAt ds i f = ds.set i (f r) := by unfold updAt; rw [hg]
    have h2 : (updAt ds i f).get? i = some (f r) := updAt_get?_self ds i f r hg
    conv_lhs => rw [updAt, h2]
    rw [h1]
    show (ds.set i (f r)).set i (f (f r)) = ds.set i (f r)
    rw [List.set_set, hf]

theorem annotateRec_idem (x : String) (r : Record) :
    annotateRec x (annotateRec x r) = annotateRec x r := by
  by_cases h : x = r.generated_conversation <;> simp [annotateRec, h]

theorem saveNextRec_idem (x : String) (r : Record) :
    saveNextRec x (saveNextRec x r) = saveNextRec x r := by
  by_cases h : x = r.generated_conversation <;> simp [saveNextRec, h]

theorem saveAnnotRec_idem (x : String) (r : Record) :
    saveAnnotRec x (saveAnnotRec x r) = saveAnnotRec x r := by
  by_cases h : pyStrip x = pyStrip r.generated_conversation <;> simp [saveAnnotRec, h]

/-! ## Lemmas about the column-indexed table -/

theorem findCol_eq_none (df : DF) (c : String) (h : hasCol df c = false) :
    findCol df c = none := by
  cases hf : findCol df c with
  | none => rfl
  | some p => rw [hasCol, hf] at h; simp at h

theorem findCol_mk_append (l1 l2 : List (String × List (Option String))) (c : String) :
    findCol ⟨l1 ++ l2⟩ c = (findCol ⟨l1⟩ c).or (findCol ⟨l2⟩ c) :=
  List.find?_append

theorem findCol_single_self (c : String) (w : List (Option String)) :
    findCol ⟨[(c, w)]⟩ c = some (c, w) := by
  simp [findCol, List.find?_cons]

theorem hasCol_mk_append (df : DF) (d : String) (w : List (Option String))
    (c : String) :
    hasCol ⟨df.cols ++ [(d, w)]⟩ c = (hasCol df c || (d == c)) := by
  rw [hasCol, show findCol ⟨df.cols ++ [(d, w)]⟩ c
      = (findCol df c).or (findCol ⟨[(d, w)]⟩ c) from List.find?_append]
  cases hf : findCol df c with
  | some p => rw [hasCol, hf]; rfl
  | none =>
    rw [hasCol, hf]
    cases hd : d == c <;> simp [findCol, List.find?_cons, hd]

theorem getCol_mk_append_of_has (df : DF) (d : String) (w : List (Option String))
    (c : String) (h : hasCol df c = true) :
    getCol ⟨df.cols ++ [(d, w)]⟩ c = getCol df c := by
  obtain ⟨p, hp⟩ := Option.isSome_iff_exists.mp h
  rw [getCol, show findCol ⟨df.cols ++ [(d, w)]⟩ c
      = (findCol df c).or (findCol ⟨[(d, w)]⟩ c) from List.find?_append, hp]
  rw [getCol, hp]
  rfl

theorem getCol_mk_append_self (df : DF) (w : List (Option String)) (c : String)
    (h : hasCol df c = false) :
    getCol ⟨df.cols ++ [(c, w)]⟩ c = w := by
  rw [getCol, show findCol ⟨df.cols ++ [(c, w)]⟩ c
      = (findCol df c).or (findCol ⟨[(c, w)]⟩ c) from List.find?_append,
    findCol_eq_none df c h, Option.none_or, findCol_single_self]

theorem nrows_mk_append (df : DF) (d : String) (w : List (Option String))
    (h : df.cols ≠ []) :
    DF.nrows ⟨df.cols ++ [(d, w)]⟩ = df.nrows := by
  cases hc : df.cols with
  | nil => exact absurd hc h
  | cons p t => simp [DF.nrows, hc]

theorem alignTo_zero (w : List (Option String)) : alignTo 0 w = [] := by
  simp [alignTo]

theorem nrows_appendCol (df : DF) (d : String) (w : List (Option String)) :
    (appendCol df d w).nrows = df.nrows := by
  cases hc : df.cols with
  | nil =>
    have h0 : df.nrows = 0 := by rw [DF.nrows, hc]
    rw [appendCol, h0, alignTo_zero, hc]
    rfl
  | cons p t =>
    rw [appendCol, nrows_mk_append df d _ (by rw [hc]; exact List.cons_ne_nil p t)]

theorem hasCol_appendCol (df : DF) (d : String) (w : List (Option String))
    (c : String) :
    hasCol (appendCol df d w) c = (hasCol df c || (d == c)) :=
  hasCol_mk_append df d _ c

theorem getCol_appendCol_of_has (df : DF) (d : String) (w : List (Option String))
    (c : String) (h : hasCol df c = true) :
    getCol (appendCol df d w) c = getCol df c :=
  getCol_mk_append_of_has df d _ c h

theorem getCol_appendCol_self (df : DF) (w : List (Option String)) (c : String)
    (h : hasCol df c = false) :
    getCol (appendCol df c w) c = alignTo df.nrows w :=
  getCol_mk_append_self df _ c h

theorem nrows_ensureNA (df : DF) (c : String) : (ensureNA df c).nrows = df.nrows := by
  rw [ensureNA]
  split
  · rfl
  · cases hc : df.cols <;> simp [DF.nrows, hc]

theorem hasCol_ensureNA_self (df : DF) (c : String) :
    hasCol (ensureNA df c) c = true := by
  rw [ensureNA]
  split
  · assumption
  · rw [hasCol_mk_append]
    simp

theorem hasCol_ensureNA_of_has (df : DF) (d c : String) (h : hasCol df c = true) :
    hasCol (ensureNA df d) c = true := by
  rw [ensureNA]
  split
  · exact h
  · rw [hasCol_mk_append, h]
    rfl

theorem getCol_ensureNA_fresh (df : DF) (c : String) (h : hasCol df c = false) :
    getCol (ensureNA df c) c = List.replicate df.nrows none := by
  rw [ensureNA, if_neg (by rw [h]; exact Bool.false_ne_true)]
  exact getCol_mk_append_self df _ c h

theorem getCol_ensureNA_of_has (df : DF) (d c : String) (h : hasCol df c = true) :
    getCol (ensureNA df d) c = getCol df c := by
  rw [ensureNA]
  split
  · rfl
  · exact getCol_mk_append_of_has df d _ c h

/-! ## Lemmas about the resume reconcile loop -/

theorem reconStep_preserves (acc : DF) (p : String × List (Option String))
    (c : String) (h : hasCol acc c = true) :
    getCol (reconStep acc p) c = getCol acc c ∧ hasCol (reconStep acc p) c = true := by
  rw [reconStep]
  split
  · exact ⟨rfl, h⟩
  · exact ⟨getCol_appendCol_of_has acc p.1 p.2 c h, by rw [hasCol_appendCol, h]; rfl⟩

theorem reconStep_nrows (acc : DF) (p : String × List (Option String)) :
    (reconStep acc p).nrows = acc.nrows := by
  rw [reconStep]
  split
  · rfl
  · exact nrows_appendCol acc p.1 p.2

theorem recon_foldl_preserves (l : List (String × List (Option String)))
    (acc : DF) (c : String) (h : hasCol acc c = true) :
    getCol (l.foldl reconStep acc) c = getCol acc c ∧
      hasCol (l.foldl reconStep acc) c = true := by
  induction l generalizing acc with
  | nil => exact ⟨rfl, h⟩
  | cons p rest ih =>
    have hstep := reconStep_preserves acc p c h
    have hrest := ih (reconStep acc p) hstep.2
    exact ⟨hrest.1.trans hstep.1, hrest.2⟩

theorem recon_foldl_nrows (l : List (String × List (Option String))) (acc : DF) :
    (l.foldl reconStep acc).nrows = acc.nrows := by
  induction l generalizing acc with
  | nil => rfl
  | cons p rest ih => rw [List.foldl_cons, ih (reconStep acc p), reconStep_nrows]

theorem recon_foldl_fresh (l : List (String × List (Option String)))
    (acc : DF) (c : String) (pr : String × List (Option String))
    (h : hasCol acc c = false)
    (hf : l.find? (fun p => p.1 == c) = some pr) :
    getCol (l.foldl reconStep acc) c = alignTo acc.nrows pr.2 := by
  induction l generalizing acc with
  | nil => simp at hf
  | cons p rest ih =>
    by_cases hpc : (p.1 == c) = true
    · have hp : pr = p := by
        rw [List.find?_cons, hpc] at hf
        exact (Option.some_inj.mp hf).symm
      have hc1 : p.1 = c := beq_iff_eq.mp hpc
      have hstep : reconStep acc p = appendCol acc c p.2 := by
        rw [reconStep, if_neg (by rw [hc1, h]; exact Bool.false_ne_true), hc1]
      have hhas : hasCol (appendCol acc c p.2) c = true := by
        rw [hasCol_appendCol, h]
        simp
      rw [List.foldl_cons, hstep,
        (recon_foldl_preserves rest (appendCol acc c p.2) c hhas).1,
        getCol_appendCol_self acc p.2 c h, hp]
    · have hpc' : (p.1 == c) = false := by
        cases hb : p.1 == c
        · rfl
        · exact absurd hb hpc
      have hf' : rest.find? (fun p => p.1 == c) = some pr := by
        rwa [List.find?_cons, hpc'] at hf
      rw [List.foldl_cons]
      by_cases hacc : hasCol acc p.1 = true
      · rw [show reconStep acc p = acc from by rw [reconStep, if_pos hacc]]
        exact ih acc h hf'
      · have hstep : reconStep acc p = appendCol acc p.1 p.2 := by
          rw [reconStep, if_neg hacc]
        have hfresh : hasCol (appendCol acc p.1 p.2) c = false := by
          rw [hasCol_appendCol, h, hpc']
          rfl
        rw [hstep, ih (appendCol acc p.1 p.2) hfresh hf', nrows_appendCol]

theorem recon_foldl_hasCol (l : List (String × List (Option String)))
    (acc : DF) (c : String) :
    hasCol (l.foldl reconStep acc) c = true ↔
      (hasCol acc c = true ∨ ∃ p ∈ l, p.1 = c) := by
  induction l generalizing acc with
  | nil => simp
  | cons p rest ih =>
    rw [List.foldl_cons, ih (reconStep acc p)]
    have hstep : hasCol (reconStep acc p) c = true ↔
        (hasCol acc c = true ∨ p.1 = c) := by
      rw [reconStep]
      split
      · next hacc =>
        constructor
        · exact Or.inl
        · rintro (hl | hr)
          · exact hl
          · rwa [← hr]
      · rw [hasCol_appendCol]
        simp [Bool.or_eq_true]
    rw [hstep]
    simp only [List.mem_cons]
    constructor
    · rintro ((hl | hm) | ⟨q, hq, hqc⟩)
      · exact Or.inl hl
      · exact Or.inr ⟨p, Or.inl rfl, hm⟩
      · exact Or.inr ⟨q, Or.inr hq, hqc⟩
    · rintro (hl | ⟨q, (hq | hq), hqc⟩)
      · exact Or.inl (Or.inl hl)
      · exact Or.inl (Or.inr (hq ▸ hqc))
      · exact Or.inr ⟨q, hq, hqc⟩

theorem hasCol_iff_exists (df : DF) (c : String) :
    hasCol df c = true ↔ ∃ p ∈ df.cols, p.1 = c := by
  rw [hasCol, findCol, List.find?_isSome]
  simp

/-! ## Unfolding lemmas for the three startup functions -/

theorem startupA_missing (fs : FS) (h : fs.input = none) :
    startupA fs = (.missingFile, fs) := by
  simp only [startupA, h]

theorem startupB_missing (fs : FS) (h : fs.input = none) :
    startupB fs = (.missingFile, fs) := by
  simp only [startupB, h]

theorem startupC_missing (fs : FS) (h : fs.input = none) :
    startupC fs = (.missingFile, fs) := by
  simp only [startupC, h]

theorem startupA_schema (fs : FS) (dfIn : DF) (c : String)
    (h : fs.input = some dfIn)
    (hc : requiredA.find? (fun c => !(hasCol dfIn c)) = some c) :
    startupA fs = (.schemaErr [c], fs) := by
  simp only [startupA, h, hc]

theorem startupB_schema (fs : FS) (dfIn : DF)
    (h : fs.input = some dfIn)
    (hc : requiredB.all (fun c => hasCol dfIn c) = false) :
    startupB fs = (.schemaErr requiredB, fs) := by
  simp only [startupB, h, hc]
  rfl

theorem startupC_schema (fs : FS) (dfIn : DF) (c : String)
    (h : fs.input = some dfIn)
    (hc : requiredC.find? (fun c => !(hasCol dfIn c)) = some c) :
    startupC fs = (.schemaErr [c], fs) := by
  simp only [startupC, h, hc]

theorem startupA_fs (fs : FS) : (startupA fs).2 = fs := by
  cases h : fs.input with
  | none => rw [startupA_missing fs h]
  | some dfIn =>
    cases hc : requiredA.find? (fun c => !(hasCol dfIn c)) with
    | some c => rw [startupA_schema fs dfIn c h hc]
    | none =>
      cases ho : fs.output with
      | some dfE =>
        simp only [startupA, h, hc, ho]
        cases hu : unannRows dfE <;> simp [hu]
      | none =>
        simp only [startupA, h, hc, ho]
        cases hu : unannRows (ensureNA (ensureNA dfIn annCol) flagCol) <;> simp [hu]

theorem startupB_fs (fs : FS) : (startupB fs).2 = fs := by
  cases h : fs.input with
  | none => rw [startupB_missing fs h]
  | some dfIn =>
    by_cases hc : requiredB.all (fun c => hasCol dfIn c) = true
    · cases ho : fs.output with
      | some dfE => simp only [startupB, h, hc, ho, if_true]
      | none => simp only [startupB, h, hc, ho, if_true]
    · simp only [Bool.not_eq_true] at hc
      rw [startupB_schema fs dfIn h hc]

theorem startupA_launched_resume (fs : FS) (dfIn dfE df : DF) (pos : Nat)
    (hin : fs.input = some dfIn) (hout : fs.output = some dfE)
    (hl : (startupA fs).1 = .launched df pos) : df = dfE := by
  rw [startupA] at hl
  simp only [hin, hout] at hl
  cases hc : requiredA.find? (fun c => !(hasCol dfIn c)) with
  | some c => rw [hc] at hl; exact absurd hl (by simp)
  | none =>
    rw [hc] at hl
    cases hu : unannRows dfE with
    | nil => rw [hu] at hl; exact absurd hl (by simp)
    | cons i rest =>
      rw [hu] at hl
      injection hl with h1 h2
      exact h1.symm

theorem startupB_launched_resume (fs : FS) (dfIn dfE df : DF) (pos : Nat)
    (hin : fs.input = some dfIn) (hout : fs.output = some dfE)
    (hl : (startupB fs).1 = .launched df pos) : df = dfE := by
  rw [startupB] at hl
  simp only [hin, hout] at hl
  by_cases hc : requiredB.all (fun c => hasCol dfIn c) = true
  · rw [hc] at hl
    simp only [if_true] at hl
    injection hl with h1 h2
    exact h1.symm
  · simp only [Bool.not_eq_true] at hc
    rw [hc] at hl
    simp only [Bool.false_eq_true, if_false] at hl
    exact absurd hl (by simp)

theorem startupC_resume (fs : FS) (dfIn dfE : DF)
    (hin : fs.input = some dfIn) (hout : fs.output = some dfE)
    (hc : requiredC.find? (fun c => !(hasCol dfIn c)) = none) :
    (startupC fs).1.getDF? =
      some (reconcileExisting (ensureNA (ensureNA dfIn annCol) flagCol) dfE) ∧
      (startupC fs).2 = fs := by
  simp only [startupC, hin, hout, hc]
  cases hu : unannRows (reconcileExisting (ensureNA (ensureNA dfIn annCol) flagCol) dfE)
    <;> simp [hu, StartOut.getDF?]

theorem startupC_fresh (fs : FS) (dfIn : DF)
    (hin : fs.input = some dfIn) (hout : fs.output = none)
    (hc : requiredC.find? (fun c => !(hasCol dfIn c)) = none) :
    (startupC fs).1.getDF? = some (ensureNA (ensureNA dfIn annCol) flagCol) ∧
      (startupC fs).2 =
        { fs with output := some (ensureNA (ensureNA dfIn annCol) flagCol) } := by
  simp only [startupC, hin, hout, hc]
  cases hu : unannRows (ensureNA (ensureNA dfIn annCol) flagCol)
    <;> simp [hu, StartOut.getDF?]

theorem startupA_launched_fresh (fs : FS) (dfIn df : DF) (pos : Nat)
    (hin : fs.input = some dfIn) (hout : fs.output = none)
    (hl : (startupA fs).1 = .launched df pos) :
    df = ensureNA (ensureNA dfIn annCol) flagCol := by
  rw [startupA] at hl
  simp only [hin, hout] at hl
  cases hc : requiredA.find? (fun c => !(hasCol dfIn c)) with
  | some c => rw [hc] at hl; exact absurd hl (by simp)
  | none =>
    rw [hc] at hl
    cases hu : unannRows (ensureNA (ensureNA dfIn annCol) flagCol) with
    | nil => rw [hu] at hl; exact absurd hl (by simp)
    | cons i rest =>
      rw [hu] at hl
      injection hl with h1 h2
      exact h1.symm

theorem startupB_launched_fresh (fs : FS) (dfIn df : DF) (pos : Nat)
    (hin : fs.input = some dfIn) (hout : fs.output = none)
    (hl : (startupB fs).1 = .launched df pos) :
    df = ensureNA (ensureNA dfIn annCol) flagCol := by
  rw [startupB] at hl
  simp only [hin, hout] at hl
  by_cases hc : requiredB.all (fun c => hasCol dfIn c) = true
  · rw [hc] at hl
    simp only [if_true] at hl
    injection hl with h1 h2
    exact h1.symm
  · simp only [Bool.not_eq_true] at hc
    rw [hc] at hl
    simp only [Bool.false_eq_true, if_false] at hl
    exact absurd hl (by simp)

theorem saveAnnotStep_idem (s : Session) (x : String) :
    saveAnnotStep (saveAnnotStep s x).1 x = saveAnnotStep s x := by
  have h := updAt_idem s.df s.pos (saveAnnotRec x) (saveAnnotRec_idem x)
  show (Session.mk (updAt (updAt s.df s.pos (saveAnnotRec x)) s.pos (saveAnnotRec x)) s.pos,
      loadItemStatus
        (updAt (updAt s.df s.pos (saveAnnotRec x)) s.pos (saveAnnotRec x)) s.pos)
    = (Session.mk (updAt s.df s.pos (saveAnnotRec x)) s.pos,
      loadItemStatus (updAt s.df s.pos (saveAnnotRec x)) s.pos)
  rw [h]

/-- The non-annotation columns of a record are untouched by a record-level
update. -/
def framePreserved (f : Record → Record) : Prop :=
  ∀ r : Record, (f r).title = r.title ∧ (f r).text = r.text ∧
    (f r).selected_style = r.selected_style ∧
    (f r).selected_starter = r.selected_starter ∧
    (f r).dialog = r.dialog ∧
    (f r).generated_conversation = r.generated_conversation

theorem annotateRec_frame (x : String) : framePreserved (annotateRec x) := by
  intro r
  by_cases h : x = r.generated_conversation <;> simp [annotateRec, h]

theorem saveNextRec_frame (x : String) : framePreserved (saveNextRec x) := by
  intro r
  by_cases h : x = r.generated_conversation <;> simp [saveNextRec, h]

theorem saveAnnotRec_frame (x : String) : framePreserved (saveAnnotRec x) := by
  intro r
  by_cases h : pyStrip x = pyStrip r.generated_conversation <;> simp [saveAnnotRec, h]

/-- A record that is already annotated. -/
def rAnn : Record :=
  ⟨"tA", "xA", "styA", "staA", "dA", "gA", some "done", some "Changed"⟩

/-- An input frame missing most required columns (first missing for the
top-level wiki variant is `generated_conversation`, for the wiki
subdirectory variant `title`). -/
def dfNoTitle : DF := ⟨[("text", [some "x"])]⟩

/-- A persisted output frame: the wiki-variant schema plus annotations. -/
def df3 : DF :=
  ⟨[("title", [some "t"]), ("text", [some "x"]), ("selected_style", [some "sty"]),
    ("selected_starter", [some "sta"]), ("generated_conversation", [some "g"]),
    (annCol, [some "edited"]), (flagCol, [some "Changed"])]⟩

/-! ## Claims -/

/-- C1, counterexample: the claim says every save variant compares the
TRIMMED edited text with the TRIMMED generated text.  In the top-level wiki
variant (`annotate`), saving `"a "` over a record whose generated text is
`"a"` yields `modified_flag = Changed` even though the two strings are
equal after stripping, so the claim is false for that variant. -/
theorem C1_counterexample :
    pyStrip "a " = pyStrip "a" ∧
    rGenA.generated_conversation = "a" ∧
    (annotateRec "a " rGenA).modified_flag = some "Changed" ∧
    (annotateRec "a " rGenA).modified_flag ≠ some "No Change" :=
  ⟨by decide, rfl, by decide, by decide⟩

/-- C1, amended: only the wiki-subdirectory variant (`save_annotation`)
compares stripped strings; the top-level wiki variant (`annotate`) and the
translate variant (`save_and_next`) compare the raw strings with exact
equality, no trimming.  In each variant the flag is `No Change` exactly
when the respective comparison succeeds, else `Changed`. -/
theorem C1_amended_flag_rules (x : String) (r : Record) :
    (saveAnnotRec x r).modified_flag =
      some (if pyStrip x = pyStrip r.generated_conversation
        then "No Change" else "Changed") ∧
    (annotateRec x r).modified_flag =
      some (if x = r.generated_conversation then "No Change" else "Changed") ∧
    (saveNextRec x r).modified_flag =
      some (if x = r.generated_conversation then "No Change" else "Changed") :=
  ⟨saveAnnotRec_flag x r, annotateRec_flag x r, saveNextRec_flag x r⟩

/-- C2, counterexample: the claim says every save moves the cursor to the
lowest unannotated index when one remains.  In the wiki-subdirectory
variant (`save_annotation`), saving row 0 of a two-row dataset leaves the
cursor at 0 although the only remaining unannotated index is 1. -/
theorem C2_counterexample :
    (saveAnnotStep ⟨[r0, r1], 0⟩ "e").1.pos = 0 ∧
    unannIdx (saveAnnotStep ⟨[r0, r1], 0⟩ "e").1.df = [1] ∧
    (saveAnnotStep ⟨[r0, r1], 0⟩ "e").1.pos ≠ 1 :=
  ⟨by decide, by decide, by decide⟩

/-- C2, amended: in the translate variant, a save with unannotated rows
remaining moves the cursor to the lowest unannotated index and reports
`Annotation saved. <done> of <total> annotated.`; the top-level wiki
variant also moves to the lowest unannotated index but reports a fixed
message with no counts; the wiki-subdirectory variant leaves the cursor
where it is and reports the `load_item` row/progress status. -/
theorem C2_amended_position_and_status :
    (∀ (s : Session) (x : String) (i : Nat) (rest : List Nat),
      unannIdx (updAt s.df s.pos (saveNextRec x)) = i :: rest →
        (saveAndNextStep s x).1.pos = i ∧
        (saveAndNextStep s x).2 =
          "Annotation saved. "
            ++ toString (countAnn (saveAndNextStep s x).1.df) ++ " of "
            ++ toString s.df.length ++ " annotated.") ∧
    (∀ (s : Session) (x : String) (i : Nat) (rest : List Nat),
      unannIdx (updAt s.df s.pos (annotateRec x)) = i :: rest →
        (annotateStep s x).1.pos = i ∧
        (annotateStep s x).2 = "Annotation saved. Proceed to the next item.") ∧
    (∀ (s : Session) (x : String),
      (saveAnnotStep s x).1.pos = s.pos ∧
      (saveAnnotStep s x).2 = loadItemStatus (saveAnnotStep s x).1.df s.pos) := by
  refine ⟨fun s x i rest h => ⟨saveAndNextStep_pos_cons s x i rest h, ?_⟩,
    fun s x i rest h =>
      ⟨annotateStep_pos_cons s x i rest h, annotateStep_status_cons s x i rest h⟩,
    fun s x => ⟨saveAnnotStep_pos s x, rfl⟩⟩
  rw [saveAndNextStep_status_cons s x i rest h, saveAndNextStep_df]

/-- C2, witness for the amended theorem at a concrete two-row session. -/
theorem C2_amended_witness :
    (saveAndNextStep ⟨[r0, r1], 0⟩ "b").1.pos = 1 ∧
    (saveAndNextStep ⟨[r0, r1], 0⟩ "b").2 = "Annotation saved. 1 of 2 annotated." := by
  have h := C2_amended_position_and_status.1 ⟨[r0, r1], 0⟩ "b" 1 [] (by decide)
  refine ⟨h.1, ?_⟩
  rw [h.2]
  decide

/-- C3: persisting any frame that carries the two annotation columns and
restarting the wiki-subdirectory variant reloads a frame whose
`generated_conversation_annotated` and `modified_flag` columns are exactly
the persisted ones (round-trip fidelity of the annotation columns). -/
theorem C3_roundtrip (fs : FS) (df dfIn : DF)
    (h1 : fs.input = some dfIn)
    (h2 : requiredC.find? (fun c => !(hasCol dfIn c)) = none)
    (hann : hasCol df annCol = true) (hflag : hasCol df flagCol = true) :
    ((startupC (persistOut fs df)).1.getDF?).map
        (fun d => (getCol d annCol, getCol d flagCol)) =
      some (getCol df annCol, getCol df flagCol) := by
  have h := startupC_resume (persistOut fs df) dfIn df h1 rfl h2
  have ha : getCol (reconcileExisting (ensureNA (ensureNA dfIn annCol) flagCol) df)
      annCol = getCol df annCol :=
    (recon_foldl_preserves (ensureNA (ensureNA dfIn annCol) flagCol).cols df annCol hann).1
  have hb : getCol (reconcileExisting (ensureNA (ensureNA dfIn annCol) flagCol) df)
      flagCol = getCol df flagCol :=
    (recon_foldl_preserves (ensureNA (ensureNA dfIn annCol) flagCol).cols df flagCol hflag).1
  rw [h.1]
  simp [ha, hb]

/-- C3, witness: a concrete one-row persisted frame round-trips. -/
theorem C3_roundtrip_witness :
    ((startupC (persistOut ⟨some dfInC, none⟩ df3)).1.getDF?).map
        (fun d => (getCol d annCol, getCol d flagCol)) =
      some (getCol df3 annCol, getCol df3 flagCol) :=
  C3_roundtrip ⟨some dfInC, none⟩ df3 dfInC rfl (by decide) (by decide) (by decide)

/-- C4, counterexample: the claim says the reconciled dataset carries the
union of both schemas.  In the translate variant, with a source frame that
has an extra `speaker_info` column and an existing output frame without
it, startup launches with the output frame verbatim: `speaker_info` is in
the source frame but absent from the launched dataset. -/
theorem C4_counterexample :
    (startupB ⟨some dfInB, some dfEB⟩).1 = .launched dfEB 0 ∧
    hasCol dfInB "speaker_info" = true ∧
    hasCol dfEB "speaker_info" = false ∧
    ((startupB ⟨some dfInB, some dfEB⟩).1.getDF?).map
        (fun d => hasCol d "speaker_info") = some false :=
  ⟨by decide, by decide, by decide, by decide⟩

/-- C4, amended: only the wiki-subdirectory variant reconciles by column
union — the existing output is authoritative for the columns it has, the
reconciled schema is the union of the two, and a source column missing
from the output is copied across index-aligned by row position.  The
top-level wiki and translate variants load the existing output file
verbatim and copy nothing. -/
theorem C4_amended_reconcile :
    (∀ (df0 dfE : DF) (c : String), hasCol dfE c = true →
        getCol (reconcileExisting df0 dfE) c = getCol dfE c) ∧
    (∀ (df0 dfE : DF) (c : String),
        hasCol (reconcileExisting df0 dfE) c = true ↔
          (hasCol dfE c = true ∨ hasCol df0 c = true)) ∧
    (∀ (df0 dfE : DF) (c : String) (pr : String × List (Option String)),
        hasCol dfE c = false → findCol df0 c = some pr →
        getCol (reconcileExisting df0 dfE) c = alignTo dfE.nrows pr.2) ∧
    (∀ (fs : FS) (dfIn dfE : DF),
        fs.input = some dfIn → fs.output = some dfE →
        requiredC.find? (fun c => !(hasCol dfIn c)) = none →
        (startupC fs).1.getDF? =
          some (reconcileExisting (ensureNA (ensureNA dfIn annCol) flagCol) dfE)) ∧
    (∀ (fs : FS) (dfIn dfE df : DF) (pos : Nat),
        fs.input = some dfIn → fs.output = some dfE →
        (startupA fs).1 = .launched df pos → df = dfE) ∧
    (∀ (fs : FS) (dfIn dfE df : DF) (pos : Nat),
        fs.input = some dfIn → fs.output = some dfE →
        (startupB fs).1 = .launched df pos → df = dfE) := by
  refine ⟨fun df0 dfE c h => (recon_foldl_preserves df0.cols dfE c h).1,
    fun df0 dfE c => ?_,
    fun df0 dfE c pr h hf => recon_foldl_fresh df0.cols dfE c pr h hf,
    fun fs dfIn dfE h1 h2 h3 => (startupC_resume fs dfIn dfE h1 h2 h3).1,
    fun fs dfIn dfE df pos h1 h2 hl => startupA_launched_resume fs dfIn dfE df pos h1 h2 hl,
    fun fs dfIn dfE df pos h1 h2 hl => startupB_launched_resume fs dfIn dfE df pos h1 h2 hl⟩
  rw [reconcileExisting, recon_foldl_hasCol, hasCol_iff_exists, hasCol_iff_exists]

/-- C4, witness for the amended theorem at concrete frames. -/
theorem C4_amended_witness :
    getCol (reconcileExisting dfInC dfEB) "text" = alignTo dfEB.nrows [some "x"] ∧
    getCol (reconcileExisting dfInC dfEB) "dialog" = getCol dfEB "dialog" ∧
    (startupC ⟨some dfInC, some dfEB⟩).1.getDF? =
      some (reconcileExisting (ensureNA (ensureNA dfInC annCol) flagCol) dfEB) :=
  ⟨C4_amended_reconcile.2.2.1 dfInC dfEB "text" ("text", [some "x"])
      (by decide) (by decide),
   C4_amended_reconcile.1 dfInC dfEB "dialog" (by decide),
   C4_amended_reconcile.2.2.2.1 ⟨some dfInC, some dfEB⟩ dfInC dfEB rfl rfl (by decide)⟩

/-- C5, counterexample: the claim says the dataset is written to the
output path at startup when that path does not exist.  In the translate
variant the session launches with the NA annotation columns added in
memory, yet the output file still does not exist afterwards — it is first
created by the first save. -/
theorem C5_counterexample :
    (startupB ⟨some dfInB5, none⟩).2.output = none ∧
    (startupB ⟨some dfInB5, none⟩).1.getDF? =
      some (ensureNA (ensureNA dfInB5 annCol) flagCol) :=
  ⟨by decide, by decide⟩

/-- C5, amended: when the output path does not exist, every variant adds
`generated_conversation_annotated` and `modified_flag` as unset columns on
the source frame in memory, but only the wiki-subdirectory variant
immediately writes the frame to the output path; the top-level wiki and
translate variants leave the file system untouched at startup. -/
theorem C5_amended_init_write :
    (∀ (fs : FS) (dfIn : DF),
      fs.input = some dfIn → fs.output = none →
      requiredC.find? (fun c => !(hasCol dfIn c)) = none →
      hasCol dfIn annCol = false → hasCol dfIn flagCol = false →
        (startupC fs).2.output = some (ensureNA (ensureNA dfIn annCol) flagCol) ∧
        (startupC fs).1.getDF? = some (ensureNA (ensureNA dfIn annCol) flagCol) ∧
        getCol (ensureNA (ensureNA dfIn annCol) flagCol) annCol =
          List.replicate dfIn.nrows none ∧
        getCol (ensureNA (ensureNA dfIn annCol) flagCol) flagCol =
          List.replicate dfIn.nrows none) ∧
    (∀ fs : FS, (startupA fs).2 = fs ∧ (startupB fs).2 = fs) ∧
    (∀ (fs : FS) (dfIn df : DF) (pos : Nat),
      fs.input = some dfIn → fs.output = none →
      (startupA fs).1 = .launched df pos →
        df = ensureNA (ensureNA dfIn annCol) flagCol) ∧
    (∀ (fs : FS) (dfIn df : DF) (pos : Nat),
      fs.input = some dfIn → fs.output = none →
      (startupB fs).1 = .launched df pos →
        df = ensureNA (ensureNA dfIn annCol) flagCol) := by
  refine ⟨fun fs dfIn hin hout hreq hann hflag => ?_,
    fun fs => ⟨startupA_fs fs, startupB_fs fs⟩,
    fun fs dfIn df pos hin hout hl => startupA_launched_fresh fs dfIn df pos hin hout hl,
    fun fs dfIn df pos hin hout hl => startupB_launched_fresh fs dfIn df pos hin hout hl⟩
  have hfr := startupC_fresh fs dfIn hin hout hreq
  have hXann : hasCol (ensureNA dfIn annCol) annCol = true := hasCol_ensureNA_self dfIn annCol
  have hXflag : hasCol (ensureNA dfIn annCol) flagCol = false := by
    rw [ensureNA, if_neg (by rw [hann]; exact Bool.false_ne_true),
      hasCol_mk_append, hflag]
    decide
  refine ⟨by rw [hfr.2], hfr.1, ?_, ?_⟩
  · rw [getCol_ensureNA_of_has _ flagCol annCol hXann,
      getCol_ensureNA_fresh dfIn annCol hann]
  · rw [getCol_ensureNA_fresh _ flagCol hXflag, nrows_ensureNA]

/-- C5, witness for the amended theorem at concrete frames. -/
theorem C5_amended_witness :
    ((startupC ⟨some dfInC, none⟩).2.output =
        some (ensureNA (ensureNA dfInC annCol) flagCol) ∧
      (startupC ⟨some dfInC, none⟩).1.getDF? =
        some (ensureNA (ensureNA dfInC annCol) flagCol) ∧
      getCol (ensureNA (ensureNA dfInC annCol) flagCol) annCol =
        List.replicate dfInC.nrows none ∧
      getCol (ensureNA (ensureNA dfInC annCol) flagCol) flagCol =
        List.replicate dfInC.nrows none) ∧
    (startupB ⟨some dfInB5, none⟩).2 = ⟨some dfInB5, none⟩ :=
  ⟨C5_amended_init_write.1 ⟨some dfInC, none⟩ dfInC rfl rfl
      (by decide) (by decide) (by decide),
    (C5_amended_init_write.2.1 ⟨some dfInB5, none⟩).2⟩

/-- C6: for every finite sequence of advance / retreat / save actions (over
all three variants) on a session whose cursor is a valid index, the cursor
stays a valid index (hence within `[0, len-1]`, positions being natural
numbers); moreover advancing at the last index and retreating at index 0
are no-ops (clamping at both ends). -/
theorem C6_position_invariant :
    (∀ (ops : List Op) (s : Session), s.pos < s.df.length →
        (runOps s ops).pos < (runOps s ops).df.length) ∧
    (∀ s : Session, s.pos = s.df.length - 1 → goNext s = s) ∧
    (∀ s : Session, s.pos = 0 → goBack s = s) := by
  refine ⟨fun ops s h => runOps_pos_lt ops s h, fun s h => ?_, fun s h => ?_⟩
  · rw [goNext, if_neg (by omega)]
  · rw [goBack, if_neg (by omega)]

/-- C6, witness at a concrete two-row session and action sequence. -/
theorem C6_position_invariant_witness :
    (runOps ⟨[r0, r1], 0⟩ [Op.adv, Op.adv, Op.saveC "e", Op.ret]).pos <
      (runOps ⟨[r0, r1], 0⟩ [Op.adv, Op.adv, Op.saveC "e", Op.ret]).df.length ∧
    goNext ⟨[r0, r1], 1⟩ = ⟨[r0, r1], 1⟩ ∧
    goBack ⟨[r0, r1], 0⟩ = ⟨[r0, r1], 0⟩ :=
  ⟨C6_position_invariant.1 [Op.adv, Op.adv, Op.saveC "e", Op.ret] ⟨[r0, r1], 0⟩
      (by decide),
   C6_position_invariant.2.1 ⟨[r0, r1], 1⟩ (by decide),
   C6_position_invariant.2.2 ⟨[r0, r1], 0⟩ rfl⟩

/-- C7: per record the only transition is Unannotated → Annotated: once a
record's `generated_conversation_annotated` is set, it stays set under
every further action sequence; navigation actions do not touch the
dataframe at all; and every save variant overwrites the annotated cell
with the edited text (re-evaluating the flag), never unsetting it. -/
theorem C7_state_machine :
    (∀ (ops : List Op) (s : Session) (i : Nat),
        isAnn (s.df.getD i default) = true →
        isAnn ((runOps s ops).df.getD i default) = true) ∧
    (∀ s : Session, (stepOp s Op.adv).df = s.df ∧ (stepOp s Op.ret).df = s.df) ∧
    (∀ (x : String) (r : Record),
        (annotateRec x r).generated_conversation_annotated = some x ∧
        (saveNextRec x r).generated_conversation_annotated = some x ∧
        (saveAnnotRec x r).generated_conversation_annotated = some x) := by
  refine ⟨fun ops s i h => isAnn_runOps ops s i h, fun s => ⟨?_, ?_⟩,
    fun x r => ⟨annotateRec_ann x r, saveNextRec_ann x r, saveAnnotRec_ann x r⟩⟩
  · simp only [stepOp, goNext]
    split <;> rfl
  · simp only [stepOp, goBack]
    split <;> rfl

/-- C7, witness: an annotated record stays annotated across a save,
retreat and advance. -/
theorem C7_state_machine_witness :
    isAnn ((runOps ⟨[rAnn, r1], 1⟩ [Op.saveC "e", Op.ret, Op.adv]).df.getD 0
      default) = true :=
  C7_state_machine.1 [Op.saveC "e", Op.ret, Op.adv] ⟨[rAnn, r1], 1⟩ 0 (by decide)

/-- C8: startup fails before launching when the input file is absent
(missing-file diagnostic) or a required column is missing from the loaded
input (schema diagnostic), in each of the three variants, and in every
such case the file system is returned unchanged — no output file is
created or modified. -/
theorem C8_startup_errors :
    (∀ fs : FS, fs.input = none →
        startupA fs = (.missingFile, fs) ∧ startupB fs = (.missingFile, fs) ∧
        startupC fs = (.missingFile, fs)) ∧
    (∀ (fs : FS) (dfIn : DF) (c : String), fs.input = some dfIn →
        requiredA.find? (fun c => !(hasCol dfIn c)) = some c →
        startupA fs = (.schemaErr [c], fs)) ∧
    (∀ (fs : FS) (dfIn : DF), fs.input = some dfIn →
        requiredB.all (fun c => hasCol dfIn c) = false →
        startupB fs = (.schemaErr requiredB, fs)) ∧
    (∀ (fs : FS) (dfIn : DF) (c : String), fs.input = some dfIn →
        requiredC.find? (fun c => !(hasCol dfIn c)) = some c →
        startupC fs = (.schemaErr [c], fs)) :=
  ⟨fun fs h => ⟨startupA_missing fs h, startupB_missing fs h, startupC_missing fs h⟩,
   fun fs dfIn c h hc => startupA_schema fs dfIn c h hc,
   fun fs dfIn h hc => startupB_schema fs dfIn h hc,
   fun fs dfIn c h hc => startupC_schema fs dfIn c h hc⟩

/-- C8, witness at a missing input file and at an input frame with
missing required columns. -/
theorem C8_startup_errors_witness :
    startupA ⟨none, none⟩ = (.missingFile, ⟨none, none⟩) ∧
    startupA ⟨some dfNoTitle, none⟩ =
      (.schemaErr ["generated_conversation"], ⟨some dfNoTitle, none⟩) ∧
    startupB ⟨some dfNoTitle, none⟩ =
      (.schemaErr requiredB, ⟨some dfNoTitle, none⟩) ∧
    startupC ⟨some dfNoTitle, none⟩ =
      (.schemaErr ["title"], ⟨some dfNoTitle, none⟩) :=
  ⟨(C8_startup_errors.1 ⟨none, none⟩ rfl).1,
   C8_startup_errors.2.1 ⟨some dfNoTitle, none⟩ dfNoTitle "generated_conversation"
     rfl (by decide),
   C8_startup_errors.2.2.1 ⟨some dfNoTitle, none⟩ dfNoTitle rfl (by decide),
   C8_startup_errors.2.2.2 ⟨some dfNoTitle, none⟩ dfNoTitle "title" rfl (by decide)⟩

/-- C9: saving the same record twice with the same edited text yields the
same dataframe as saving it once, in each of the three variants; for the
wiki-subdirectory variant, where the cursor does not move on save, the
whole session/status result of a second identical save press is identical
as well. -/
theorem C9_save_idempotent (ds : List Record) (i : Nat) (x : String) (s : Session) :
    updAt (updAt ds i (annotateRec x)) i (annotateRec x) =
      updAt ds i (annotateRec x) ∧
    updAt (updAt ds i (saveNextRec x)) i (saveNextRec x) =
      updAt ds i (saveNextRec x) ∧
    updAt (updAt ds i (saveAnnotRec x)) i (saveAnnotRec x) =
      updAt ds i (saveAnnotRec x) ∧
    saveAnnotStep (saveAnnotStep s x).1 x = saveAnnotStep s x :=
  ⟨updAt_idem ds i _ (annotateRec_idem x), updAt_idem ds i _ (saveNextRec_idem x),
   updAt_idem ds i _ (saveAnnotRec_idem x), saveAnnotStep_idem s x⟩

/-- C10: a save only ever touches the saved row's
`generated_conversation_annotated` and `modified_flag` cells: list length
is preserved, every other row is unchanged, and within the saved row the
title, text, style, starter, dialog and generated-conversation cells are
unchanged, in each of the three variants. -/
theorem C10_frame (ds : List Record) (i : Nat) (x : String) :
    (updAt ds i (annotateRec x)).length = ds.length ∧
    (updAt ds i (saveNextRec x)).length = ds.length ∧
    (updAt ds i (saveAnnotRec x)).length = ds.length ∧
    (∀ j, j ≠ i →
      (updAt ds i (annotateRec x)).get? j = ds.get? j ∧
      (updAt ds i (saveNextRec x)).get? j = ds.get? j ∧
      (updAt ds i (saveAnnotRec x)).get? j = ds.get? j) ∧
    framePreserved (annotateRec x) ∧
    framePreserved (saveNextRec x) ∧
    framePreserved (saveAnnotRec x) :=
  ⟨updAt_length ds i _, updAt_length ds i _, updAt_length ds i _,
   fun j hj => ⟨updAt_get?_ne ds i j _ hj, updAt_get?_ne ds i j _ hj,
     updAt_get?_ne ds i j _ hj⟩,
   annotateRec_frame x, saveNextRec_frame x, saveAnnotRec_frame x⟩

/-- C10, witness: the untouched row 1 and the untouched cells of row 0 at
a concrete save. -/
theorem C10_frame_witness :
    (updAt [r0, r1] 0 (annotateRec "e")).length = ([r0, r1] : List Record).length ∧
    (updAt [r0, r1] 0 (annotateRec "e")).get? 1 = ([r0, r1] : List Record).get? 1 ∧
    (annotateRec "e" r0).generated_conversation = r0.generated_conversation := by
  have h := C10_frame [r0, r1] 0 "e"
  exact ⟨h.1, (h.2.2.2.1 1 (by decide)).1, (h.2.2.2.2.1 r0).2.2.2.2.2⟩

end DialogFA
